import Mathlib

/-!
Verification of the anchor-notes-app core against its specification.

The client Sync Engine (public/js/main.js) is embedded as pure functions over
an explicit `ClientState` record: module-level globals (`currentNoteId`,
`hasUnsavedChanges`, the notes list DOM, the editor fields) become record
fields; DOM note items become `NoteItem` records; `fetch` responses and socket
emissions are made explicit parameters/outputs.  Button spinner toggling
(`toggleButtonState`) is presentation-only and is elided.  The server side
(src/controllers/noteController.js over the Mongoose Note model) is embedded
as functions over a list of `StoredNote`s, and the Socket.IO relay
(server.js) as a function computing the deliveries of one incoming event.
-/

/-- JavaScript `s || dflt` for strings: the empty string is falsy. -/
def jsStringOr (s dflt : String) : String :=
  if s = "" then dflt else s

/-- A note as the client receives it from the server (JSON body). -/
structure Note where
  id : String
  title : String
  content : String
  updatedAt : Nat
  deriving DecidableEq, Repr

/-- One entry of the visible notes list (a `.list-group-item` DOM element):
its `data-note-id`, the rendered title, the rendered preview text and the
`data-updated-at` sort key. -/
structure NoteItem where
  noteId : String
  title : String
  preview : String
  updatedAt : Nat
  deriving DecidableEq, Repr

/-- `getContentPreview` of main.js: empty content gives the empty string,
content longer than 50 characters is truncated with an ellipsis. -/
def getContentPreview (content : String) : String :=
  if content = "" then ""
  else if content.length > 50 then content.take 50 ++ "..." else content

/-- `createNoteElement` of main.js: builds a fresh list entry for a note
(title falls back to "Untitled" when empty). -/
def createNoteElement (n : Note) : NoteItem :=
  { noteId := n.id
    title := jsStringOr n.title "Untitled"
    preview := getContentPreview n.content
    updatedAt := n.updatedAt }

/-- `updateNoteElement` of main.js: rewrites the title, preview and
`updatedAt` of an existing list entry from a note payload; the entry's
`data-note-id` is not touched. -/
def updateNoteElement (e : NoteItem) (n : Note) : NoteItem :=
  { e with
    title := jsStringOr n.title "Untitled"
    preview := getContentPreview n.content
    updatedAt := n.updatedAt }

/-- `document.querySelector` followed by `updateNoteElement`: updates the
first list entry whose id matches the payload's id. -/
def updateFirstMatching (l : List NoteItem) (n : Note) : List NoteItem :=
  match l with
  | [] => []
  | e :: rest =>
    if e.noteId = n.id then updateNoteElement e n :: rest
    else e :: updateFirstMatching rest n

/-- `removeNoteFromList` of main.js: removes the first list entry whose id
matches. -/
def removeNoteFromList (l : List NoteItem) (noteId : String) : List NoteItem :=
  match l with
  | [] => []
  | e :: rest =>
    if e.noteId = noteId then rest else e :: removeNoteFromList rest noteId

/-- The comparator of `sortNotesList`: `new Date(b.updatedAt) - new
Date(a.updatedAt)`, i.e. descending by update time. -/
def noteLe (a b : NoteItem) : Prop := b.updatedAt ≤ a.updatedAt

instance : DecidableRel noteLe := fun a b => Nat.decLe b.updatedAt a.updatedAt

instance : IsTotal NoteItem noteLe :=
  ⟨fun a b => Nat.le_total b.updatedAt a.updatedAt⟩

instance : IsTrans NoteItem noteLe :=
  ⟨fun _ _ _ h1 h2 => Nat.le_trans h2 h1⟩

/-- `sortNotesList` of main.js: `Array.prototype.sort` is stable, so it is a
stable sort by `updatedAt` descending. -/
def sortNotesList (l : List NoteItem) : List NoteItem :=
  List.insertionSort noteLe l

/-- A socket emission performed by the client (`socket.emit(...)`). -/
inductive SocketEmit where
  | noteCreated (n : Note)
  | noteUpdated (n : Note)
  | noteDeleted (noteId : String)
  deriving DecidableEq, Repr

/-- The client-side state of main.js: the module-level globals together with
the DOM-held data they manipulate.  `history` records the ids pushed via
`history.pushState`, `alerts` the messages passed to `window.alert`, and
`emitted` the socket emissions, in order. -/
structure ClientState where
  notesList : List NoteItem
  currentNoteId : Option String
  noteTitle : String
  noteContent : String
  documentTitle : String
  hasUnsavedChanges : Bool
  highlighted : Option String
  history : List (Option String)
  alerts : List String
  emitted : List SocketEmit
  page : Nat
  loadMoreVisible : Bool
  deriving DecidableEq, Repr

/-- The ids of the visible notes list, in display order. -/
def idsOf (s : ClientState) : List String :=
  s.notesList.map NoteItem.noteId

/-- `highlightSelectedNoteItem` of main.js: clears the highlight and, if a
list entry with the id exists, highlights it. -/
def highlightSelectedNoteItem (s : ClientState) (noteId : Option String) : ClientState :=
  match noteId with
  | some i =>
    if s.notesList.any (fun e => e.noteId == i) then { s with highlighted := some i }
    else { s with highlighted := none }
  | none => { s with highlighted := none }

/-- `updateDocumentTitle` of main.js. -/
def updateDocumentTitle (s : ClientState) (title : String) : ClientState :=
  { s with documentTitle := if title = "" then "Anchor" else title ++ " - Anchor" }

/-- `resetNoteEditor` of main.js. -/
def resetNoteEditor (s : ClientState) : ClientState :=
  let s1 := { s with currentNoteId := none, noteTitle := "", noteContent := "" }
  let s2 := highlightSelectedNoteItem s1 none
  let s3 := updateDocumentTitle s2 ""
  { s3 with hasUnsavedChanges := false }

/-- `displayNoteDetails` of main.js: loads a note payload into the editor
fields (`note.title || ''` is the identity on strings) and clears the dirty
flag. -/
def displayNoteDetails (s : ClientState) (n : Note) : ClientState :=
  let s1 := { s with currentNoteId := some n.id, noteTitle := n.title, noteContent := n.content }
  let s2 := highlightSelectedNoteItem s1 (some n.id)
  let s3 := updateDocumentTitle s2 n.title
  { s3 with hasUnsavedChanges := false }

/-- `addNoteToList` of main.js: if an entry with the payload's id exists it
is updated in place, otherwise a fresh entry is prepended or appended; the
list is then re-sorted and the entry optionally highlighted. -/
def addNoteToList (s : ClientState) (n : Note) (prepend highlight : Bool) : ClientState :=
  let l1 :=
    if s.notesList.any (fun e => e.noteId == n.id) then
      updateFirstMatching s.notesList n
    else if prepend then createNoteElement n :: s.notesList
    else s.notesList ++ [createNoteElement n]
  let s1 := { s with notesList := sortNotesList l1 }
  if highlight then highlightSelectedNoteItem s1 (some n.id) else s1

/-- `updateNoteInList` of main.js: update the existing entry or add the note
(prepended), then re-sort. -/
def updateNoteInList (s : ClientState) (n : Note) : ClientState :=
  let s1 :=
    if s.notesList.any (fun e => e.noteId == n.id) then
      { s with notesList := updateFirstMatching s.notesList n }
    else addNoteToList s n true false
  { s1 with notesList := sortNotesList s1.notesList }

/-- `handleNoteUpdate` of main.js: the `note-updated` socket handler.
The list is reconciled, and if the payload is for the currently open note
the editor is re-rendered from it. -/
def handleNoteUpdate (s : ClientState) (n : Note) : ClientState :=
  let s1 := updateNoteInList s n
  if s1.currentNoteId = some n.id then displayNoteDetails s1 n else s1

/-- The outcome of the `fetch` in `saveCurrentNote`: an ok response carrying
the saved note JSON, or a failure (non-ok status or network error — both
reach the same `catch`). -/
inductive SaveResponse where
  | ok (n : Note)
  | err
  deriving DecidableEq, Repr

/-- The request issued by `saveCurrentNote` when it starts: method and
target are chosen from `currentNoteId`, the body from the trimmed field
values. -/
structure SaveRequest where
  isUpdate : Bool
  targetId : Option String
  bodyTitle : String
  bodyContent : String
  deriving DecidableEq, Repr

/-- The request `saveCurrentNote` issues from state `s`. -/
def saveRequestOf (s : ClientState) : SaveRequest :=
  { isUpdate := s.currentNoteId.isSome
    targetId := s.currentNoteId
    bodyTitle := s.noteTitle.trim
    bodyContent := s.noteContent.trim }

/-- The continuation of `saveCurrentNote` after its `await fetch` resolves,
run against the state current at that moment (which, because in-flight
requests are not cancelable, may differ from the state the request was
issued from).  On ok: upsert the list, emit `note-updated`/`note-created`
(chosen from the current `currentNoteId`), overwrite `currentNoteId` with
the response's id, push a history entry, set the document title, clear the
dirty flag and highlight.  On failure: alert only. -/
def saveResponseHandler (s : ClientState) (resp : SaveResponse) : ClientState :=
  match resp with
  | .ok note =>
    let s1 := updateNoteInList s note
    let s2 := { s1 with
      emitted := s1.emitted ++
        [if s1.currentNoteId.isSome then SocketEmit.noteUpdated note
         else SocketEmit.noteCreated note] }
    let s3 := { s2 with currentNoteId := some note.id }
    let s4 := { s3 with history := s3.history ++ [some note.id] }
    let s5 := updateDocumentTitle s4 note.title
    let s6 := { s5 with hasUnsavedChanges := false }
    highlightSelectedNoteItem s6 (some note.id)
  | .err =>
    { s with alerts := s.alerts ++ ["Failed to save note. Please try again."] }

/-- `saveCurrentNote` of main.js run without interleaving: the request it
issues, and the state after its response is processed. -/
def saveCurrentNote (s : ClientState) (resp : SaveResponse) : SaveRequest × ClientState :=
  (saveRequestOf s, saveResponseHandler s resp)

/-- `deleteNoteById` of main.js: a confirmation guard, then the DELETE
request; only after an ok response is the entry removed, the `note-deleted`
broadcast emitted, and (if the deleted note was open) the editor reset and a
null history entry pushed.  On failure only an alert is shown. -/
def deleteNoteById (s : ClientState) (noteId : String) (confirmed respOk : Bool) : ClientState :=
  if confirmed = false then s
  else if respOk then
    let wasCurrentNote := s.currentNoteId = some noteId
    let s1 := { s with notesList := removeNoteFromList s.notesList noteId }
    let s2 := { s1 with emitted := s1.emitted ++ [SocketEmit.noteDeleted noteId] }
    if wasCurrentNote then
      let s3 := resetNoteEditor s2
      { s3 with history := s3.history ++ [none] }
    else s2
  else { s with alerts := s.alerts ++ ["Failed to delete note. Please try again."] }

/-- One page of results of `GET /notes?page=&limit=`. -/
structure FetchPage where
  notes : List Note
  hasMore : Bool
  deriving DecidableEq, Repr

/-- `fetchNotes` of main.js: on success each returned note is passed to
`addNoteToList(note, false, false)` in order and the load-more button
visibility is set from `hasMore`; on failure an alert is shown. -/
def fetchNotes (s : ClientState) (resp : Option FetchPage) : ClientState :=
  match resp with
  | some data =>
    let s1 := data.notes.foldl (fun st n => addNoteToList st n false false) s
    { s1 with loadMoreVisible := data.hasMore }
  | none => { s with alerts := s.alerts ++ ["Failed to load notes. Please try again."] }

/-- `loadMoreNotes` of main.js: increment the page counter, then fetch. -/
def loadMoreNotes (s : ClientState) (resp : Option FetchPage) : ClientState :=
  fetchNotes { s with page := s.page + 1 } resp

/-- A sequence of successful load-more calls with their returned pages. -/
def runLoadMores (s : ClientState) (pages : List FetchPage) : ClientState :=
  pages.foldl (fun st p => loadMoreNotes st (some p)) s

/-- The fixed autosave delay of main.js (milliseconds). -/
def AUTOSAVE_DELAY : Nat := 1000

/-- The slice of client state that the autosave machinery touches: the dirty
flag, the current editor field values (read by `saveCurrentNote` when the
timer fires), the armed `setTimeout` deadline (if any), and the bodies of
the save requests issued so far. -/
structure AutosaveState where
  hasUnsavedChanges : Bool
  titleField : String
  contentField : String
  deadline : Option Nat
  saves : List (String × String)
  deriving DecidableEq, Repr

/-- A keystroke: the time it occurs and the resulting editor field values. -/
structure Keystroke where
  time : Nat
  title : String
  content : String
  deriving DecidableEq, Repr

/-- The armed timer firing once its deadline is reached: the `setTimeout`
callback of `scheduleAutosave` checks `hasUnsavedChanges` and, if set,
issues a save request with the current field values. -/
def fireTimerIfDue (st : AutosaveState) (now : Nat) : AutosaveState :=
  match st.deadline with
  | some d =>
    if d ≤ now then
      if st.hasUnsavedChanges then
        { st with saves := st.saves ++ [(st.titleField, st.contentField)], deadline := none }
      else { st with deadline := none }
    else st
  | none => st

/-- `handleNoteInput` followed by `scheduleAutosave` of main.js: the
keystroke updates the fields, sets the dirty flag, and `clearTimeout` +
`setTimeout` re-arm the single timer to fire `AUTOSAVE_DELAY` later. -/
def handleNoteInput (st : AutosaveState) (k : Keystroke) : AutosaveState :=
  { st with
    titleField := k.title
    contentField := k.content
    hasUnsavedChanges := true
    deadline := some (k.time + AUTOSAVE_DELAY) }

/-- Process a time-ordered sequence of keystrokes: before each keystroke the
armed timer fires if its deadline has passed. -/
def runKeystrokes (st : AutosaveState) (ks : List Keystroke) : AutosaveState :=
  match ks with
  | [] => st
  | k :: rest => runKeystrokes (handleNoteInput (fireTimerIfDue st k.time) k) rest

/-- Quiescence until time `now`: the armed timer fires if due. -/
def afterQuiescence (st : AutosaveState) (now : Nat) : AutosaveState :=
  fireTimerIfDue st now

/-- The clean initial autosave state (note open, nothing dirty, no timer). -/
def cleanAutosaveState (title content : String) : AutosaveState :=
  { hasUnsavedChanges := false
    titleField := title
    contentField := content
    deadline := none
    saves := [] }

/-- The last keystroke of `k :: rest`. -/
def lastKeystroke (k : Keystroke) (rest : List Keystroke) : Keystroke :=
  rest.getLastD k

/-- A note document as stored by the Note model (Mongoose schema of
models/Note.js: `title` defaulting to "Untitled", `content` defaulting to
the empty string, a required `user` reference, and `timestamps: true`
assigning `createdAt`/`updatedAt`). -/
structure StoredNote where
  id : String
  title : String
  content : String
  user : String
  createdAt : Nat
  updatedAt : Nat
  deriving DecidableEq, Repr

/-- A well-formed MongoDB ObjectId in its string form: 24 hex characters.
A route parameter that is not of this form fails Mongoose's ObjectId cast,
which makes the query reject (a `CastError` reaching the controller's
`catch`). -/
def isValidObjectId (s : String) : Bool :=
  s.length = 24 && s.toList.all fun c =>
    c.isDigit || ('a' ≤ c && c ≤ 'f') || ('A' ≤ c && c ≤ 'F')

/-- A response sent by the note controller: a note rendered as JSON with a
status, a JSON error object, a plain-text error, a JSON message object, or
a rendered page (the non-JSON branch of `getNote`, which shows the note and
a sidebar of the caller's own notes — the sidebar is elided). -/
inductive NoteResponse where
  | noteJson (status : Nat) (n : StoredNote)
  | errorJson (status : Nat) (error : String)
  | errorText (status : Nat) (msg : String)
  | messageJson (message : String)
  | renderPage (title : String) (currentNote : StoredNote)
  deriving DecidableEq, Repr

/-- The HTTP status of a response (express `res.json` defaults to 200). -/
def statusOf (r : NoteResponse) : Nat :=
  match r with
  | .noteJson s _ => s
  | .errorJson s _ => s
  | .errorText s _ => s
  | .messageJson _ => 200
  | .renderPage _ _ => 200

/-- `Note.findOne({ _id: id, user })`: the first stored note matching both
the id and the owning user. -/
def findOwned (db : List StoredNote) (user noteId : String) : Option StoredNote :=
  db.find? fun n => n.id == noteId && n.user == user

/-- `getNote` of noteController.js: a malformed id makes the query throw,
reaching the `catch` (status 400 text); otherwise `findOne({_id, user})`
yields the note (JSON or rendered page) or a 404. -/
def getNote (db : List StoredNote) (user paramId : String) (wantsJson : Bool) : NoteResponse :=
  if isValidObjectId paramId then
    match findOwned db user paramId with
    | none =>
      if wantsJson then .errorJson 404 "Note not found"
      else .errorText 404 "Note not found"
    | some n =>
      if wantsJson then .noteJson 200 n
      else .renderPage (jsStringOr n.title "Untitled Note") n
  else .errorText 400 "An error occurred while fetching the note"

/-- Replace the first stored note matching the owned query by `n2`
(`findOneAndUpdate` updates a single document). -/
def replaceOwned (db : List StoredNote) (user noteId : String) (n2 : StoredNote) : List StoredNote :=
  match db with
  | [] => []
  | n :: rest =>
    if n.id == noteId && n.user == user then n2 :: rest
    else n :: replaceOwned rest user noteId n2

/-- Remove the first stored note matching the owned query
(`findOneAndDelete` deletes a single document). -/
def removeOwned (db : List StoredNote) (user noteId : String) : List StoredNote :=
  match db with
  | [] => []
  | n :: rest =>
    if n.id == noteId && n.user == user then rest
    else n :: removeOwned rest user noteId

/-- `updateNote` of noteController.js: `findOneAndUpdate({_id, user},
{title, content}, {new: true})` returning the updated note JSON or a 404; a
malformed id makes the cast throw, reaching the `catch` (status 400 JSON
with the error's message). -/
def updateNote (db : List StoredNote) (user paramId newTitle newContent : String)
    (now : Nat) : NoteResponse × List StoredNote :=
  if isValidObjectId paramId then
    match findOwned db user paramId with
    | none => (.errorJson 404 "Note not found", db)
    | some n =>
      let updated := { n with title := newTitle, content := newContent, updatedAt := now }
      (.noteJson 200 updated, replaceOwned db user paramId updated)
  else (.errorJson 400 "Cast to ObjectId failed", db)

/-- `deleteNote` of noteController.js: `findOneAndDelete({_id, user})`
yielding a JSON message or a 404; a malformed id reaches the `catch`
(status 400 JSON). -/
def deleteNote (db : List StoredNote) (user paramId : String) : NoteResponse × List StoredNote :=
  if isValidObjectId paramId then
    match findOwned db user paramId with
    | none => (.errorJson 404 "Note not found", db)
    | some _ => (.messageJson "Note deleted successfully", removeOwned db user paramId)
  else (.errorJson 400 "Cast to ObjectId failed", db)

/-- The note document built and saved by `createNote` of noteController.js:
title and content fall back under JavaScript `||` (absent or empty string),
the owner is the session user, and the store assigns the fresh id and the
`createdAt`/`updatedAt` timestamps (schema `timestamps: true`). -/
def createdNote (user : String) (bodyTitle bodyContent : Option String)
    (freshId : String) (now : Nat) : StoredNote :=
  { id := freshId
    title := jsStringOr (bodyTitle.getD "") "Untitled"
    content := jsStringOr (bodyContent.getD "") ""
    user := user
    createdAt := now
    updatedAt := now }

/-- `createNote` of noteController.js: saves the new document and answers
201 with the created note JSON. -/
def createNote (db : List StoredNote) (user : String) (bodyTitle bodyContent : Option String)
    (freshId : String) (now : Nat) : NoteResponse × List StoredNote :=
  let note := createdNote user bodyTitle bodyContent freshId now
  (.noteJson 201 note, db ++ [note])

/-- A connected Socket.IO socket: its socket id and the identity of the
user whose browser session it belongs to.  server.js never inspects the
latter. -/
structure RTSocket where
  sid : Nat
  user : String
  deriving DecidableEq, Repr

/-- A real-time event as emitted by a client. -/
inductive RTEvent where
  | noteCreated (payload : Note)
  | noteUpdated (payload : Note)
  | noteDeleted (noteId : String)
  deriving DecidableEq, Repr

/-- The connection handler of server.js: each of the three `socket.on`
handlers does `socket.broadcast.emit(event, payload)`, i.e. delivers the
same event with the verbatim payload to every connected socket except the
originator.  The result lists the deliveries (socket id, event). -/
def relayHandler (sockets : List RTSocket) (origin : Nat) (ev : RTEvent) : List (Nat × RTEvent) :=
  match ev with
  | .noteCreated n => (sockets.filter fun s => s.sid != origin).map fun s => (s.sid, .noteCreated n)
  | .noteUpdated n => (sockets.filter fun s => s.sid != origin).map fun s => (s.sid, .noteUpdated n)
  | .noteDeleted i => (sockets.filter fun s => s.sid != origin).map fun s => (s.sid, .noteDeleted i)

/-- Every list entry carrying the payload's id already shows exactly the
payload's rendered data (the shape an entry has right after being created
or updated from that payload). -/
def canonicalFor (n : Note) (l : List NoteItem) : Prop :=
  ∀ e ∈ l, e.noteId = n.id → e = createNoteElement n

/-! Concrete values used by witnesses and counterexamples. -/

/-- A well-formed ObjectId string. -/
def exIdA : String := "aaaaaaaaaaaaaaaaaaaaaaaa"

/-- A second well-formed ObjectId string. -/
def exIdB : String := "bbbbbbbbbbbbbbbbbbbbbbbb"

/-- A third well-formed ObjectId string. -/
def exIdC : String := "cccccccccccccccccccccccc"

/-- A sample note payload. -/
def exNoteA : Note := { id := exIdA, title := "Alpha", content := "hello", updatedAt := 5 }

/-- A second sample note payload. -/
def exNoteB : Note := { id := exIdB, title := "Beta", content := "world", updatedAt := 7 }

/-- A fresh client state as after `initializeStateVariables`. -/
def baseState : ClientState :=
  { notesList := []
    currentNoteId := none
    noteTitle := ""
    noteContent := ""
    documentTitle := "Anchor"
    hasUnsavedChanges := false
    highlighted := none
    history := []
    alerts := []
    emitted := []
    page := 1
    loadMoreVisible := true }

/-- The client state after the user has navigated to note B (while a save of
note A is still in flight). -/
def navState : ClientState :=
  { baseState with
    notesList := [createNoteElement exNoteB]
    currentNoteId := some exIdB
    noteTitle := "Beta"
    noteContent := "world"
    documentTitle := "Beta - Anchor"
    highlighted := some exIdB
    history := [some exIdB] }

/-- A client state with note A visible in the list and open in the editor. -/
def exDelState : ClientState :=
  { baseState with
    notesList := [createNoteElement exNoteA]
    currentNoteId := some exIdA
    noteTitle := "Alpha"
    noteContent := "hello" }

/-- A stored note owned by `owner1`. -/
def exStoredA : StoredNote :=
  { id := exIdA, title := "Secret", content := "secret body", user := "owner1"
    createdAt := 1, updatedAt := 2 }

/-- A one-note database. -/
def exDb : List StoredNote := [exStoredA]

/-- Two connected sockets belonging to different users. -/
def exSockets : List RTSocket := [{ sid := 1, user := "alice" }, { sid := 2, user := "bob" }]

/-- A one-note result page. -/
def exPage : FetchPage := { notes := [exNoteA], hasMore := true }

/-! Helper lemmas about the shape of the client-state operations. -/

theorem highlight_eq (s : ClientState) (i : Option String) :
    highlightSelectedNoteItem s i =
      { s with highlighted :=
          match i with
          | none => none
          | some x => if s.notesList.any (fun e => e.noteId == x) then some x else none } := by
  cases i with
  | none => rfl
  | some x =>
    by_cases h : s.notesList.any (fun e => e.noteId == x) <;>
      simp [highlightSelectedNoteItem, h]

theorem resetNoteEditor_eq (s : ClientState) :
    resetNoteEditor s =
      { s with currentNoteId := none, noteTitle := "", noteContent := ""
               highlighted := none, documentTitle := "Anchor", hasUnsavedChanges := false } := by
  simp [resetNoteEditor, highlight_eq, updateDocumentTitle]

theorem displayNoteDetails_eq (s : ClientState) (n : Note) :
    displayNoteDetails s n =
      { s with currentNoteId := some n.id, noteTitle := n.title, noteContent := n.content
               highlighted := if s.notesList.any (fun e => e.noteId == n.id) then some n.id else none
               documentTitle := if n.title = "" then "Anchor" else n.title ++ " - Anchor"
               hasUnsavedChanges := false } := by
  simp [displayNoteDetails, highlight_eq, updateDocumentTitle]

theorem updateNoteInList_eq (s : ClientState) (n : Note) :
    updateNoteInList s n =
      { s with notesList :=
          if s.notesList.any (fun e => e.noteId == n.id) then
            sortNotesList (updateFirstMatching s.notesList n)
          else sortNotesList (sortNotesList (createNoteElement n :: s.notesList)) } := by
  by_cases h : s.notesList.any (fun e => e.noteId == n.id) <;>
    simp [updateNoteInList, addNoteToList, h]

theorem saveResponseHandler_ok_eq (s : ClientState) (note : Note) :
    saveResponseHandler s (.ok note) =
      { s with
        notesList := (updateNoteInList s note).notesList
        emitted := s.emitted ++
          [if s.currentNoteId.isSome then SocketEmit.noteUpdated note
           else SocketEmit.noteCreated note]
        currentNoteId := some note.id
        history := s.history ++ [some note.id]
        documentTitle := if note.title = "" then "Anchor" else note.title ++ " - Anchor"
        hasUnsavedChanges := false
        highlighted :=
          if (updateNoteInList s note).notesList.any (fun e => e.noteId == note.id) then
            some note.id
          else none } := by
  simp only [saveResponseHandler, highlight_eq, updateDocumentTitle, updateNoteInList_eq]

/-- C1 counterexample: with note B open (after navigating during an
in-flight save of note A), the arriving save response for A is not
discarded — `currentNoteId` is overwritten with A's id, a history entry for
A is pushed, and the dirty flag is cleared, so the editor state is changed
rather than left unchanged. -/
theorem stale_save_response_applied_cex :
    (saveResponseHandler navState (SaveResponse.ok exNoteA)).currentNoteId
        ≠ navState.currentNoteId
    ∧ (saveResponseHandler navState (SaveResponse.ok exNoteA)).history
        ≠ navState.history
    ∧ (saveResponseHandler navState (SaveResponse.ok exNoteA)).currentNoteId = some exIdA
    ∧ navState.currentNoteId = some exIdB := by
  refine ⟨?_, ?_, ?_, rfl⟩ <;> decide

/-- C1 amended: the save-response continuation performs no staleness check.
For every state current when the response arrives — in particular one the
user has navigated to meanwhile — and every response note, the handler
applies the response unconditionally: the note is upserted into the list,
an event is emitted, and `currentNoteId`, the history entry and the
unsaved-changes flag are overwritten from the response. -/
theorem save_response_applied_unconditionally (s : ClientState) (note : Note) :
    (saveResponseHandler s (SaveResponse.ok note)).currentNoteId = some note.id
    ∧ (saveResponseHandler s (SaveResponse.ok note)).history = s.history ++ [some note.id]
    ∧ (saveResponseHandler s (SaveResponse.ok note)).hasUnsavedChanges = false
    ∧ (saveResponseHandler s (SaveResponse.ok note)).emitted = s.emitted ++
        [if s.currentNoteId.isSome then SocketEmit.noteUpdated note
         else SocketEmit.noteCreated note] := by
  simp [saveResponseHandler_ok_eq]

/-- C2: a failed save (non-ok response or network error) leaves the whole
client state unchanged except for appending one error alert: the title and
content drafts, `currentNoteId`, the notes list, the history and the
unsaved-changes flag are all preserved, so further edits or a manual save
can retry. -/
theorem save_failure_preserves_draft (s : ClientState) :
    (saveCurrentNote s SaveResponse.err).2 =
      { s with alerts := s.alerts ++ ["Failed to save note. Please try again."] }
    ∧ (saveCurrentNote s SaveResponse.err).2.noteTitle = s.noteTitle
    ∧ (saveCurrentNote s SaveResponse.err).2.noteContent = s.noteContent
    ∧ (saveCurrentNote s SaveResponse.err).2.currentNoteId = s.currentNoteId
    ∧ (saveCurrentNote s SaveResponse.err).2.hasUnsavedChanges = s.hasUnsavedChanges :=
  ⟨rfl, rfl, rfl, rfl, rfl⟩

/-- C5 counterexample: deletion is not optimistic.  With note A visible,
a confirmed delete whose store call fails leaves the list unchanged — the
note is still present (there was no removal to roll back), contradicting
removal from the list before the store call completes. -/
theorem delete_optimistic_removal_cex :
    (deleteNoteById exDelState exIdA true false).notesList = exDelState.notesList
    ∧ (deleteNoteById exDelState exIdA true false).notesList.any
        (fun e => e.noteId == exIdA) = true
    ∧ removeNoteFromList exDelState.notesList exIdA ≠ exDelState.notesList := by
  refine ⟨rfl, ?_, ?_⟩ <;> decide

/-- C5 amended: on a confirmed delete the store call is issued first; the
entry is removed from the list and the `note-deleted` broadcast emitted only
after an ok response, while on store failure the state is unchanged except
for an error alert (so there is no optimistic removal and nothing to roll
back). -/
theorem delete_removal_only_after_success (s : ClientState) (noteId : String) :
    deleteNoteById s noteId true false =
      { s with alerts := s.alerts ++ ["Failed to delete note. Please try again."] }
    ∧ (deleteNoteById s noteId true true).notesList = removeNoteFromList s.notesList noteId
    ∧ (deleteNoteById s noteId true true).emitted = s.emitted ++ [SocketEmit.noteDeleted noteId]
    ∧ deleteNoteById s noteId false true = s
    ∧ deleteNoteById s noteId false false = s := by
  refine ⟨rfl, ?_, ?_, rfl, rfl⟩ <;>
    · by_cases h : s.currentNoteId = some noteId <;>
        simp [deleteNoteById, h, resetNoteEditor_eq]

/-- C10: the relay re-delivers every client-emitted note event verbatim to
every other connected socket; the deliveries do not depend on the user
identities behind the sockets (no ownership or authentication check), so a
socket of a different user receives the full payload. -/
theorem relay_unscoped_delivery (sockets : List RTSocket) (origin : Nat) (ev : RTEvent) :
    (∀ s ∈ sockets, s.sid ≠ origin → (s.sid, ev) ∈ relayHandler sockets origin ev)
    ∧ (∀ d ∈ relayHandler sockets origin ev, d.2 = ev)
    ∧ (∀ f : Nat → String,
        relayHandler (sockets.map fun s => { s with user := f s.sid }) origin ev
          = relayHandler sockets origin ev) := by
  refine ⟨?_, ?_, ?_⟩
  · intro s hs hne
    cases ev <;>
      · simp only [relayHandler, List.mem_map, List.mem_filter]
        exact ⟨s, ⟨hs, by simpa using hne⟩, rfl⟩
  · intro d hd
    cases ev <;>
      · simp only [relayHandler, List.mem_map, List.mem_filter] at hd
        obtain ⟨x, _, rfl⟩ := hd
        rfl
  · intro f
    cases ev <;>
      · simp only [relayHandler]
        induction sockets with
        | nil => rfl
        | cons x xs ih =>
          by_cases h : x.sid != origin <;> simp [h, ih]

/-- C10 witness: with sockets 1 (alice) and 2 (bob) connected, an update
emitted by socket 1 is delivered with its full payload to bob's socket. -/
theorem relay_unscoped_delivery_witness :
    ({ sid := 2, user := "bob" } : RTSocket) ∈ exSockets
    ∧ (2, RTEvent.noteUpdated exNoteA) ∈
        relayHandler exSockets 1 (RTEvent.noteUpdated exNoteA) :=
  ⟨by decide,
   (relay_unscoped_delivery exSockets 1 (RTEvent.noteUpdated exNoteA)).1
     { sid := 2, user := "bob" } (by decide) (by decide)⟩

theorem findOwned_eq_none_of_foreign (db : List StoredNote) (caller pid : String)
    (hforeign : ∀ n ∈ db, n.id = pid → n.user ≠ caller) :
    findOwned db caller pid = none := by
  rw [findOwned, List.find?_eq_none]
  intro n hn
  simp only [Bool.and_eq_true, beq_iff_eq, not_and]
  intro hid
  exact hforeign n hn hid

theorem findOwned_filter_ne (db : List StoredNote) (caller pid : String) :
    findOwned (db.filter fun n => n.id != pid) caller pid = none := by
  rw [findOwned, List.find?_eq_none]
  intro n hn
  rw [List.mem_filter] at hn
  simp only [Bool.and_eq_true, beq_iff_eq, not_and]
  intro hid
  simp [hid] at hn

/-- C4: a get, update or delete naming a note id that exists but belongs to
a different user yields exactly the constant 404 "Note not found" response
(no note data, and the database is unchanged), and that response is
identical to the one produced when no note with that id exists at all — the
foreign note's existence is not observable. -/
theorem ownership_isolation_notfound (db : List StoredNote)
    (caller pid t c : String) (now : Nat) (wantsJson : Bool)
    (hvalid : isValidObjectId pid = true)
    (_hexists : ∃ n ∈ db, n.id = pid)
    (hforeign : ∀ n ∈ db, n.id = pid → n.user ≠ caller) :
    (getNote db caller pid wantsJson =
        if wantsJson then NoteResponse.errorJson 404 "Note not found"
        else NoteResponse.errorText 404 "Note not found")
    ∧ updateNote db caller pid t c now = (NoteResponse.errorJson 404 "Note not found", db)
    ∧ deleteNote db caller pid = (NoteResponse.errorJson 404 "Note not found", db)
    ∧ getNote db caller pid wantsJson
        = getNote (db.filter fun n => n.id != pid) caller pid wantsJson
    ∧ (updateNote db caller pid t c now).1
        = (updateNote (db.filter fun n => n.id != pid) caller pid t c now).1
    ∧ (deleteNote db caller pid).1
        = (deleteNote (db.filter fun n => n.id != pid) caller pid).1 := by
  have hnone := findOwned_eq_none_of_foreign db caller pid hforeign
  have hnone2 := findOwned_filter_ne db caller pid
  refine ⟨?_, ?_, ?_, ?_, ?_, ?_⟩ <;>
    simp [getNote, updateNote, deleteNote, hnone, hnone2, hvalid]

/-- C4 witness: owner1's stored note is invisible to caller "intruder": the
get returns the constant 404 JSON error. -/
theorem ownership_isolation_notfound_witness :
    (∃ n ∈ exDb, n.id = exIdA)
    ∧ (∀ n ∈ exDb, n.id = exIdA → n.user ≠ "intruder")
    ∧ getNote exDb "intruder" exIdA true = NoteResponse.errorJson 404 "Note not found" := by
  refine ⟨by decide, by decide, ?_⟩
  have h := ownership_isolation_notfound exDb "intruder" exIdA "t" "c" 0 true
    (by decide) (by decide) (by decide)
  simpa using h.1

/-- C7: every create stores a note carrying the store-assigned id and
`createdAt`/`updatedAt` timestamps and answers 201 with that note; an empty
or missing title is stored as "Untitled" and an empty or missing content as
the empty string. -/
theorem createNote_defaults_and_assignment (db : List StoredNote) (user : String)
    (bodyTitle bodyContent : Option String) (freshId : String) (now : Nat)
    (ht : bodyTitle = none ∨ bodyTitle = some "")
    (hc : bodyContent = none ∨ bodyContent = some "") :
    (createNote db user bodyTitle bodyContent freshId now).1
        = NoteResponse.noteJson 201 (createdNote user bodyTitle bodyContent freshId now)
    ∧ (createNote db user bodyTitle bodyContent freshId now).2
        = db ++ [createdNote user bodyTitle bodyContent freshId now]
    ∧ (createdNote user bodyTitle bodyContent freshId now).id = freshId
    ∧ (createdNote user bodyTitle bodyContent freshId now).createdAt = now
    ∧ (createdNote user bodyTitle bodyContent freshId now).updatedAt = now
    ∧ (createdNote user bodyTitle bodyContent freshId now).title = "Untitled"
    ∧ (createdNote user bodyTitle bodyContent freshId now).content = "" := by
  refine ⟨rfl, rfl, rfl, rfl, rfl, ?_, ?_⟩
  · rcases ht with h | h <;> simp [h, createdNote, jsStringOr]
  · rcases hc with h | h <;> simp [h, createdNote, jsStringOr]

/-- C7 witness: creating with an empty title and a missing content yields a
stored note titled "Untitled" with empty content, id and timestamps
assigned. -/
theorem createNote_defaults_witness :
    (createdNote "u1" (some "") none exIdC 42).title = "Untitled"
    ∧ (createdNote "u1" (some "") none exIdC 42).content = ""
    ∧ (createdNote "u1" (some "") none exIdC 42).id = exIdC
    ∧ (createdNote "u1" (some "") none exIdC 42).createdAt = 42 := by
  have h := createNote_defaults_and_assignment [] "u1" (some "") none exIdC 42
    (Or.inr rfl) (Or.inl rfl)
  exact ⟨h.2.2.2.2.2.1, h.2.2.2.2.2.2, h.2.2.1, h.2.2.2.1⟩

/-- C8 counterexample: for a malformed note id ("abc" fails the ObjectId
cast) both GET and PUT answer status 400 — the controllers' catch branches —
not 404, refuting that every failing id yields 404. -/
theorem malformed_id_status_cex :
    statusOf (getNote [] "u1" "abc" true) = 400
    ∧ statusOf (updateNote [] "u1" "abc" "t" "c" 0).1 = 400
    ∧ (400 : Nat) ≠ 404 := by
  decide

/-- C8 amended: for authenticated GET/PUT on `/notes/:id`, a well-formed id
resolving to a caller-owned note yields the note JSON (updated note JSON
for PUT, status 200); a well-formed id that does not resolve yields 404;
but a malformed id (failing the ObjectId cast) yields status 400 from the
controllers' catch branches, not 404. -/
theorem note_id_resolution_status (db : List StoredNote)
    (user pid t c : String) (now : Nat) :
    (statusOf (getNote db user pid true)
        = if isValidObjectId pid then
            (match findOwned db user pid with | some _ => 200 | none => 404)
          else 400)
    ∧ (statusOf (updateNote db user pid t c now).1
        = if isValidObjectId pid then
            (match findOwned db user pid with | some _ => 200 | none => 404)
          else 400)
    ∧ (∀ n : StoredNote, getNote db user pid true = NoteResponse.noteJson 200 n
        ↔ (isValidObjectId pid = true ∧ findOwned db user pid = some n))
    ∧ (∀ n : StoredNote, (updateNote db user pid t c now).1 = NoteResponse.noteJson 200 n
        ↔ (isValidObjectId pid = true ∧ ∃ m, findOwned db user pid = some m
            ∧ n = { m with title := t, content := c, updatedAt := now })) := by
  refine ⟨?_, ?_, ?_, ?_⟩ <;>
    by_cases hv : isValidObjectId pid <;>
      cases hm : findOwned db user pid <;>
        (simp [getNote, updateNote, statusOf, hv, hm]
         try (intro n; constructor))
  all_goals intro h
  · exact h.symm
  · exact h.symm

theorem updateNoteElement_noteId (e : NoteItem) (n : Note) :
    (updateNoteElement e n).noteId = e.noteId := rfl

theorem updateNoteElement_of_id (e : NoteItem) (n : Note) (h : e.noteId = n.id) :
    updateNoteElement e n = createNoteElement n := by
  cases e with
  | mk i t p u =>
    dsimp only [NoteItem.noteId] at h
    subst h
    rfl

theorem updateFirstMatching_map_noteId (l : List NoteItem) (n : Note) :
    (updateFirstMatching l n).map NoteItem.noteId = l.map NoteItem.noteId := by
  induction l with
  | nil => rfl
  | cons e rest ih =>
    by_cases h : e.noteId = n.id <;>
      simp [updateFirstMatching, h, updateNoteElement_noteId, ih]

theorem sortNotesList_perm (l : List NoteItem) : (sortNotesList l).Perm l :=
  List.perm_insertionSort noteLe l

theorem sortNotesList_sorted (l : List NoteItem) : List.Sorted noteLe (sortNotesList l) :=
  List.sorted_insertionSort noteLe l

theorem sortNotesList_of_sorted {l : List NoteItem} (h : List.Sorted noteLe l) :
    sortNotesList l = l :=
  h.insertionSort_eq

theorem any_id_eq_mem (l : List NoteItem) (i : String) :
    l.any (fun e => e.noteId == i) = true ↔ i ∈ l.map NoteItem.noteId := by
  simp [List.any_eq_true, List.mem_map]

theorem canonicalFor_perm {n : Note} {l l2 : List NoteItem}
    (hp : l.Perm l2) (h : canonicalFor n l) : canonicalFor n l2 :=
  fun e he => h e (hp.mem_iff.2 he)

theorem canonicalFor_updateFirstMatching {l : List NoteItem} (n : Note)
    (hnd : (l.map NoteItem.noteId).Nodup) :
    canonicalFor n (updateFirstMatching l n) := by
  induction l with
  | nil => intro e he; simp [updateFirstMatching] at he
  | cons e rest ih =>
    rw [List.map_cons, List.nodup_cons] at hnd
    by_cases h : e.noteId = n.id
    · intro x hx hid
      rw [updateFirstMatching, if_pos h] at hx
      rcases List.mem_cons.1 hx with rfl | hx
      · exact updateNoteElement_of_id e n h
      · exact absurd (by rw [h, ← hid]; exact List.mem_map_of_mem NoteItem.noteId hx) hnd.1
    · intro x hx hid
      rw [updateFirstMatching, if_neg h] at hx
      rcases List.mem_cons.1 hx with rfl | hx
      · exact absurd hid h
      · exact ih hnd.2 x hx hid

theorem canonicalFor_cons_fresh {l : List NoteItem} (n : Note)
    (habs : (l.any fun e => e.noteId == n.id) = false) :
    canonicalFor n (createNoteElement n :: l) := by
  intro x hx hid
  rcases List.mem_cons.1 hx with rfl | hx
  · rfl
  · exfalso
    have : l.any (fun e => e.noteId == n.id) = true :=
      List.any_eq_true.2 ⟨x, hx, by simp [hid]⟩
    simp [this] at habs

theorem updateFirstMatching_of_canonical {l : List NoteItem} {n : Note}
    (h : canonicalFor n l) : updateFirstMatching l n = l := by
  induction l with
  | nil => rfl
  | cons e rest ih =>
    by_cases he : e.noteId = n.id
    · rw [updateFirstMatching, if_pos he, updateNoteElement_of_id e n he,
        h e (List.mem_cons_self e rest) he]
    · rw [updateFirstMatching, if_neg he,
        ih fun x hx => h x (List.mem_cons_of_mem e hx)]

theorem updateNoteInList_currentNoteId (s : ClientState) (n : Note) :
    (updateNoteInList s n).currentNoteId = s.currentNoteId := by
  rw [updateNoteInList_eq]

theorem updateNoteInList_notesList_facts (s : ClientState) (n : Note)
    (h : (idsOf s).Nodup) :
    canonicalFor n (updateNoteInList s n).notesList
    ∧ ((updateNoteInList s n).notesList.map NoteItem.noteId).Nodup
    ∧ (updateNoteInList s n).notesList.any (fun e => e.noteId == n.id) = true
    ∧ List.Sorted noteLe (updateNoteInList s n).notesList := by
  rw [updateNoteInList_eq]
  by_cases hb : s.notesList.any (fun e => e.noteId == n.id) = true
  · simp only [hb, if_true]
    have hmap := updateFirstMatching_map_noteId s.notesList n
    have hperm := sortNotesList_perm (updateFirstMatching s.notesList n)
    have h2 : (s.notesList.map NoteItem.noteId).Nodup := by simpa [idsOf] using h
    have h3 : ((updateFirstMatching s.notesList n).map NoteItem.noteId).Nodup := by
      rw [hmap]; exact h2
    refine ⟨canonicalFor_perm hperm.symm (canonicalFor_updateFirstMatching n h2),
      ?_, ?_, sortNotesList_sorted _⟩
    · rw [(hperm.map NoteItem.noteId).nodup_iff]
      exact h3
    · rw [any_id_eq_mem, (hperm.map NoteItem.noteId).mem_iff, hmap]
      exact (any_id_eq_mem s.notesList n.id).1 hb
  · have hb2 : s.notesList.any (fun e => e.noteId == n.id) = false :=
      Bool.not_eq_true _ ▸ eq_false_of_ne_true hb
    simp only [hb2, Bool.false_eq_true, if_false]
    have hfresh : n.id ∉ s.notesList.map NoteItem.noteId := by
      rw [← any_id_eq_mem]
      simp [hb2]
    have hperm : sortNotesList (sortNotesList (createNoteElement n :: s.notesList)) |>.Perm
        (createNoteElement n :: s.notesList) :=
      (sortNotesList_perm _).trans (sortNotesList_perm _)
    refine ⟨canonicalFor_perm hperm.symm (canonicalFor_cons_fresh n hb2),
      ?_, ?_, sortNotesList_sorted _⟩
    · rw [(hperm.map NoteItem.noteId).nodup_iff]
      simp only [List.map_cons, List.nodup_cons]
      exact ⟨hfresh, by simpa [idsOf] using h⟩
    · rw [any_id_eq_mem, (hperm.map NoteItem.noteId).mem_iff]
      simp [createNoteElement]

theorem handleNoteUpdate_preserves (s : ClientState) (n : Note) :
    (handleNoteUpdate s n).notesList = (updateNoteInList s n).notesList
    ∧ (handleNoteUpdate s n).currentNoteId = s.currentNoteId := by
  by_cases hc : (updateNoteInList s n).currentNoteId = some n.id
  · have hc2 := hc
    rw [updateNoteInList_currentNoteId] at hc2
    have hd : handleNoteUpdate s n = displayNoteDetails (updateNoteInList s n) n := by
      simp only [handleNoteUpdate]
      rw [if_pos hc]
    rw [hd, displayNoteDetails_eq]
    exact ⟨rfl, hc2.symm⟩
  · have hm : handleNoteUpdate s n = updateNoteInList s n := by
      simp only [handleNoteUpdate]
      rw [if_neg hc]
    rw [hm]
    exact ⟨rfl, updateNoteInList_currentNoteId s n⟩

theorem updateNoteInList_self (s2 : ClientState) (n : Note)
    (hcan : canonicalFor n s2.notesList)
    (hsorted : List.Sorted noteLe s2.notesList)
    (hany : s2.notesList.any (fun e => e.noteId == n.id) = true) :
    updateNoteInList s2 n = s2 := by
  rw [updateNoteInList_eq]
  simp only [hany, if_true, updateFirstMatching_of_canonical hcan,
    sortNotesList_of_sorted hsorted]

/-- C3: applying the `note-updated` handler twice with the same payload
gives exactly the state of applying it once — the list entries, their sort
order, the highlight, and (when the payload is for the open note) the
editor fields all coincide; the second application is a no-op.  The visible
list is assumed to have no duplicate ids, the invariant `addNoteToList`
maintains on every insertion path. -/
theorem handleNoteUpdate_idempotent (s : ClientState) (n : Note)
    (h : (idsOf s).Nodup) :
    handleNoteUpdate (handleNoteUpdate s n) n = handleNoteUpdate s n := by
  obtain ⟨hcan, _hnd, hany, hsort⟩ := updateNoteInList_notesList_facts s n h
  obtain ⟨hlist, hcur⟩ := handleNoteUpdate_preserves s n
  have hcan2 : canonicalFor n (handleNoteUpdate s n).notesList := by
    rw [hlist]; exact hcan
  have hsort2 : List.Sorted noteLe (handleNoteUpdate s n).notesList := by
    rw [hlist]; exact hsort
  have hany2 : ((handleNoteUpdate s n).notesList.any fun e => e.noteId == n.id) = true := by
    rw [hlist]; exact hany
  have hself : updateNoteInList (handleNoteUpdate s n) n = handleNoteUpdate s n :=
    updateNoteInList_self _ n hcan2 hsort2 hany2
  have key : ∀ s2 : ClientState, updateNoteInList s2 n = s2 →
      handleNoteUpdate s2 n =
        if s2.currentNoteId = some n.id then displayNoteDetails s2 n else s2 := by
    intro s2 hs2
    simp only [handleNoteUpdate, hs2]
  rw [key _ hself]
  by_cases hc : (handleNoteUpdate s n).currentNoteId = some n.id
  · rw [if_pos hc]
    have hc0 : (updateNoteInList s n).currentNoteId = some n.id := by
      rw [updateNoteInList_currentNoteId, ← hcur]
      exact hc
    have hfirst : handleNoteUpdate s n = displayNoteDetails (updateNoteInList s n) n := by
      simp only [handleNoteUpdate]
      rw [if_pos hc0]
    rw [hfirst, displayNoteDetails_eq (updateNoteInList s n) n, displayNoteDetails_eq]
  · rw [if_neg hc]

/-- C3 witness: with note A visible and open, applying the same
`note-updated` payload twice equals applying it once. -/
theorem handleNoteUpdate_idempotent_witness :
    (idsOf exDelState).Nodup
    ∧ handleNoteUpdate (handleNoteUpdate exDelState exNoteA) exNoteA
        = handleNoteUpdate exDelState exNoteA :=
  ⟨by decide, handleNoteUpdate_idempotent exDelState exNoteA (by decide)⟩

theorem highlight_notesList (s : ClientState) (i : Option String) :
    (highlightSelectedNoteItem s i).notesList = s.notesList := by
  rw [highlight_eq]

theorem addNoteToList_notesList (s : ClientState) (n : Note) (pre hl : Bool) :
    (addNoteToList s n pre hl).notesList = sortNotesList (
      if s.notesList.any (fun e => e.noteId == n.id) then updateFirstMatching s.notesList n
      else if pre then createNoteElement n :: s.notesList
      else s.notesList ++ [createNoteElement n]) := by
  cases hl <;> by_cases hb : s.notesList.any (fun e => e.noteId == n.id) = true <;>
    cases pre <;> simp [addNoteToList, highlight_notesList, hb]

theorem addNoteToList_page (s : ClientState) (n : Note) (pre hl : Bool) :
    (addNoteToList s n pre hl).page = s.page := by
  cases hl <;> by_cases hb : s.notesList.any (fun e => e.noteId == n.id) = true <;>
    cases pre <;> simp [addNoteToList, highlight_eq, hb]

theorem addNoteToList_ids_perm (s : ClientState) (n : Note) (pre hl : Bool) :
    (idsOf (addNoteToList s n pre hl)).Perm
      (if n.id ∈ idsOf s then idsOf s else n.id :: idsOf s) := by
  by_cases hb : s.notesList.any (fun e => e.noteId == n.id) = true
  · have hm : n.id ∈ idsOf s := (any_id_eq_mem _ _).1 hb
    rw [if_pos hm, idsOf, addNoteToList_notesList, if_pos hb]
    have h1 := (sortNotesList_perm (updateFirstMatching s.notesList n)).map NoteItem.noteId
    rw [updateFirstMatching_map_noteId] at h1
    exact h1
  · have hm : ¬ n.id ∈ idsOf s := fun hmem => hb ((any_id_eq_mem _ _).2 hmem)
    rw [if_neg hm, idsOf, addNoteToList_notesList, if_neg hb]
    cases pre
    · simp only [Bool.false_eq_true, if_false]
      have h1 := (sortNotesList_perm (s.notesList ++ [createNoteElement n])).map NoteItem.noteId
      rw [List.map_append] at h1
      refine h1.trans ?_
      have h2 : (List.map NoteItem.noteId [createNoteElement n]) = [n.id] := rfl
      rw [h2]
      exact List.perm_append_singleton n.id (s.notesList.map NoteItem.noteId)
    · simp only [if_true]
      have h1 := (sortNotesList_perm (createNoteElement n :: s.notesList)).map NoteItem.noteId
      rw [List.map_cons] at h1
      exact h1

theorem addNoteToList_ids_nodup (s : ClientState) (n : Note) (pre hl : Bool)
    (h : (idsOf s).Nodup) : (idsOf (addNoteToList s n pre hl)).Nodup := by
  rw [(addNoteToList_ids_perm s n pre hl).nodup_iff]
  by_cases hm : n.id ∈ idsOf s
  · rw [if_pos hm]; exact h
  · rw [if_neg hm]; exact List.nodup_cons.2 ⟨hm, h⟩

theorem addNoteToList_ids_toFinset (s : ClientState) (n : Note) (pre hl : Bool) :
    (idsOf (addNoteToList s n pre hl)).toFinset = insert n.id (idsOf s).toFinset := by
  rw [List.toFinset_eq_of_perm _ _ (addNoteToList_ids_perm s n pre hl)]
  by_cases hm : n.id ∈ idsOf s
  · rw [if_pos hm, Finset.insert_eq_self.2 (List.mem_toFinset.2 hm)]
  · rw [if_neg hm, List.toFinset_cons]

theorem applyFetched_facts (ns : List Note) : ∀ s : ClientState, (idsOf s).Nodup →
    (idsOf (ns.foldl (fun st n => addNoteToList st n false false) s)).Nodup
    ∧ (idsOf (ns.foldl (fun st n => addNoteToList st n false false) s)).toFinset
        = (idsOf s).toFinset ∪ (ns.map Note.id).toFinset
    ∧ (ns.foldl (fun st n => addNoteToList st n false false) s).page = s.page := by
  induction ns with
  | nil => intro s h; simp [h]
  | cons m rest ih =>
    intro s h
    simp only [List.foldl_cons]
    obtain ⟨h1, h2, h3⟩ := ih (addNoteToList s m false false)
      (addNoteToList_ids_nodup s m false false h)
    refine ⟨h1, ?_, by rw [h3, addNoteToList_page]⟩
    rw [h2, addNoteToList_ids_toFinset, List.map_cons, List.toFinset_cons,
      Finset.insert_union, Finset.union_insert]

theorem runLoadMores_facts (pages : List FetchPage) : ∀ s : ClientState, (idsOf s).Nodup →
    (idsOf (runLoadMores s pages)).Nodup
    ∧ (idsOf (runLoadMores s pages)).toFinset
        = (idsOf s).toFinset ∪ ((pages.map fun p => p.notes.map Note.id).flatten).toFinset
    ∧ (runLoadMores s pages).page = s.page + pages.length := by
  induction pages with
  | nil => intro s h; simp [runLoadMores, h]
  | cons p rest ih =>
    intro s h
    have hrun : runLoadMores s (p :: rest) = runLoadMores (loadMoreNotes s (some p)) rest := by
      simp [runLoadMores]
    have hids : idsOf (loadMoreNotes s (some p))
        = idsOf (p.notes.foldl (fun st n => addNoteToList st n false false)
            { s with page := s.page + 1 }) := by
      simp [loadMoreNotes, fetchNotes, idsOf]
    have hpg : (loadMoreNotes s (some p)).page
        = (p.notes.foldl (fun st n => addNoteToList st n false false)
            { s with page := s.page + 1 }).page := by
      simp [loadMoreNotes, fetchNotes]
    have hbase : idsOf ({ s with page := s.page + 1 } : ClientState) = idsOf s := rfl
    obtain ⟨f1, f2, f3⟩ := applyFetched_facts p.notes { s with page := s.page + 1 }
      (by rw [hbase]; exact h)
    obtain ⟨g1, g2, g3⟩ := ih (loadMoreNotes s (some p)) (by rw [hids]; exact f1)
    rw [hrun]
    refine ⟨g1, ?_, ?_⟩
    · rw [g2, hids, f2, hbase, List.map_cons, List.flatten_cons, List.toFinset_append,
        Finset.union_assoc]
    · rw [g3, hpg, f3]
      simp [Nat.add_assoc, Nat.add_comm 1 rest.length]

/-- C9 counterexample: two successful load-more calls that each return the
same single note produce a list of length 1, not 2 — a cross-page duplicate
does not appear as a separate entry (`addNoteToList` updates the existing
entry in place), so the list length is not the sum of the fetched counts. -/
theorem loadMore_duplicate_length_cex :
    (runLoadMores baseState [exPage, exPage]).notesList.length = 1
    ∧ exPage.notes.length + exPage.notes.length = 2
    ∧ (1 : Nat) ≠ 2 := by
  decide

/-- C9 amended: each successful load-more appends the fetched notes whose
ids are new and updates in place those already present (never replacing the
list), increments the page counter, and leaves the list containing exactly
the ids seen — so its length is the number of distinct ids among the
pre-existing entries and all fetched items, not the raw sum of the fetch
counts. -/
theorem loadMore_upsert_distinct_count (s : ClientState) (pages : List FetchPage)
    (h : (idsOf s).Nodup) :
    (runLoadMores s pages).notesList.length
      = (idsOf s ++ (pages.map fun p => p.notes.map Note.id).flatten).toFinset.card
    ∧ (runLoadMores s pages).page = s.page + pages.length
    ∧ (∀ x, x ∈ idsOf (runLoadMores s pages)
        ↔ x ∈ idsOf s ∨ x ∈ (pages.map fun p => p.notes.map Note.id).flatten) := by
  obtain ⟨h1, h2, h3⟩ := runLoadMores_facts pages s h
  refine ⟨?_, h3, ?_⟩
  · have hlen : (runLoadMores s pages).notesList.length
        = (idsOf (runLoadMores s pages)).length := by
      rw [idsOf, List.length_map]
    rw [hlen, ← List.toFinset_card_of_nodup h1, h2, List.toFinset_append]
  · intro x
    rw [← List.mem_toFinset, h2, Finset.mem_union, List.mem_toFinset, List.mem_toFinset]

/-- C9 witness: from the fresh state, two load-more calls returning the
same single note yield a list whose length is the distinct-id count. -/
theorem loadMore_upsert_distinct_count_witness :
    (idsOf baseState).Nodup
    ∧ (runLoadMores baseState [exPage, exPage]).notesList.length
        = (idsOf baseState
            ++ ([exPage, exPage].map fun p => p.notes.map Note.id).flatten).toFinset.card :=
  ⟨by decide, (loadMore_upsert_distinct_count baseState [exPage, exPage] (by decide)).1⟩

theorem run_from_armed (rest : List Keystroke) :
    ∀ (k : Keystroke) (saves0 : List (String × String)),
    List.Chain' (fun a b => a.time ≤ b.time ∧ b.time < a.time + AUTOSAVE_DELAY) (k :: rest) →
    runKeystrokes
        { hasUnsavedChanges := true, titleField := k.title, contentField := k.content
          deadline := some (k.time + AUTOSAVE_DELAY), saves := saves0 } rest
      = { hasUnsavedChanges := true, titleField := (lastKeystroke k rest).title
          contentField := (lastKeystroke k rest).content
          deadline := some ((lastKeystroke k rest).time + AUTOSAVE_DELAY), saves := saves0 } := by
  induction rest with
  | nil => intro k saves0 _; rfl
  | cons k2 rest2 ih =>
    intro k saves0 hchain
    rw [List.chain'_cons] at hchain
    have hlt : ¬ (k.time + AUTOSAVE_DELAY ≤ k2.time) := Nat.not_le.2 hchain.1.2
    have hfire : fireTimerIfDue
        { hasUnsavedChanges := true, titleField := k.title, contentField := k.content
          deadline := some (k.time + AUTOSAVE_DELAY), saves := saves0 } k2.time
        = { hasUnsavedChanges := true, titleField := k.title, contentField := k.content
            deadline := some (k.time + AUTOSAVE_DELAY), saves := saves0 } := by
      simp [fireTimerIfDue, hlt]
    have hlast : lastKeystroke k (k2 :: rest2) = lastKeystroke k2 rest2 := by
      cases rest2 with
      | nil => rfl
      | cons r rs =>
        obtain ⟨x, hx⟩ := Option.isSome_iff_exists.1
          (List.getLast?_isSome.2 (List.cons_ne_nil r rs))
        simp [lastKeystroke, List.getLast?_cons_cons, hx]
    rw [runKeystrokes, hfire, hlast]
    exact ih k2 saves0 hchain.2

/-- C6: starting from a clean editing state, for any burst of keystrokes in
which each keystroke arrives before the previously armed autosave delay
elapses (so each re-arms the single timer), followed by quiescence of at
least the autosave delay, no save request is issued during the burst and
exactly one save request is issued at the end — carrying the field values
of the last keystroke. -/
theorem autosave_debounce_single_save (startTitle startContent : String)
    (k : Keystroke) (rest : List Keystroke) (T : Nat)
    (hchain : List.Chain' (fun a b => a.time ≤ b.time ∧ b.time < a.time + AUTOSAVE_DELAY)
        (k :: rest))
    (hT : (lastKeystroke k rest).time + AUTOSAVE_DELAY ≤ T) :
    (runKeystrokes (cleanAutosaveState startTitle startContent) (k :: rest)).saves = []
    ∧ (afterQuiescence (runKeystrokes (cleanAutosaveState startTitle startContent) (k :: rest))
        T).saves
      = [((lastKeystroke k rest).title, (lastKeystroke k rest).content)] := by
  have hstep : runKeystrokes (cleanAutosaveState startTitle startContent) (k :: rest)
      = runKeystrokes
          { hasUnsavedChanges := true, titleField := k.title, contentField := k.content
            deadline := some (k.time + AUTOSAVE_DELAY), saves := [] } rest := rfl
  rw [hstep, run_from_armed rest k [] hchain]
  refine ⟨rfl, ?_⟩
  simp [afterQuiescence, fireTimerIfDue, hT]

/-- C6 witness: keystrokes at 0 and 500 ms (the second inside the pending
1000 ms delay), then quiescence until 1500 ms, issue exactly the one save
carrying the second keystroke's fields. -/
theorem autosave_debounce_single_save_witness :
    List.Chain' (fun a b => a.time ≤ b.time ∧ b.time < a.time + AUTOSAVE_DELAY)
        ([⟨0, "t1", "c1"⟩, ⟨500, "t2", "c2"⟩] : List Keystroke)
    ∧ (afterQuiescence
        (runKeystrokes (cleanAutosaveState "" "")
          ([⟨0, "t1", "c1"⟩, ⟨500, "t2", "c2"⟩] : List Keystroke)) 1500).saves
        = [("t2", "c2")] :=
  ⟨List.chain'_cons.2 ⟨⟨by decide, by decide⟩, List.chain'_singleton _⟩,
   (autosave_debounce_single_save "" "" ⟨0, "t1", "c1"⟩ [⟨500, "t2", "c2"⟩] 1500
      (List.chain'_cons.2 ⟨⟨by decide, by decide⟩, List.chain'_singleton _⟩)
      (by decide)).2⟩
